import Mathlib

/-!
Verification of the compliance-checker core (src/app.py) against its
specification.  The development shallowly embeds the two units the
specification covers: the standards normalizer (`read_standards_file`,
app.py lines 27-61) and the compliance analyzer's response handling
(`analyze_compliance`, app.py lines 63-123).  Tabular data is modelled
column-major (a list of header/values pairs, as a pandas DataFrame is
keyed by column labels), Python strings as Lean `String`, and the
standard-library `json.loads` as an executable recursive-descent JSON
parser over the JSON grammar.
-/

/-- Whitespace recognised by Python's `str.strip` on ASCII input
(space, tab, newline, carriage return, vertical tab, form feed). -/
def pyWs (c : Char) : Bool :=
  c == ' ' || c == '\t' || c == '\n' || c == '\r' || c == '\x0b' || c == '\x0c'

/-- Whitespace recognised by the JSON grammar (and by `json.loads`):
space, tab, newline, carriage return. -/
def jsonWs (c : Char) : Bool :=
  c == ' ' || c == '\t' || c == '\n' || c == '\r'

/-- Boolean test that the first list is an initial segment of the second. -/
def begChars (pat s : List Char) : Bool :=
  match pat, s with
  | [], _ => true
  | x :: xs, y :: ys => x == y && begChars xs ys
  | _ :: _, [] => false

/-- Boolean test that `pat` occurs contiguously somewhere in the second list;
this is Python's `pat in s` on strings. -/
def containsSub (pat : List Char) : List Char → Bool
  | [] => begChars pat []
  | c :: cs => begChars pat (c :: cs) || containsSub pat cs

/-- ASCII lower-casing of one character, as Python's `str.lower` acts on
ASCII text (the headers and markers this program manipulates). -/
def pyLower (c : Char) : Char :=
  match c with
  | 'A' => 'a'
  | 'B' => 'b'
  | 'C' => 'c'
  | 'D' => 'd'
  | 'E' => 'e'
  | 'F' => 'f'
  | 'G' => 'g'
  | 'H' => 'h'
  | 'I' => 'i'
  | 'J' => 'j'
  | 'K' => 'k'
  | 'L' => 'l'
  | 'M' => 'm'
  | 'N' => 'n'
  | 'O' => 'o'
  | 'P' => 'p'
  | 'Q' => 'q'
  | 'R' => 'r'
  | 'S' => 's'
  | 'T' => 't'
  | 'U' => 'u'
  | 'V' => 'v'
  | 'W' => 'w'
  | 'X' => 'x'
  | 'Y' => 'y'
  | 'Z' => 'z'
  | d => d

/-- Drop leading whitespace (the left half of Python's `strip`). -/
def stripL (cs : List Char) : List Char := cs.dropWhile pyWs

/-- Drop trailing whitespace (the right half of Python's `strip`). -/
def stripR (cs : List Char) : List Char := (stripL cs.reverse).reverse

/-- Python's `str.strip()` on a character list. -/
def pystrip (cs : List Char) : List Char := stripR (stripL cs)

/-- Python's `str.strip()`. -/
def pystripS (s : String) : String := ⟨pystrip s.data⟩

/-- Python's `str.lower()` (ASCII). -/
def lowerS (s : String) : String := ⟨s.data.map pyLower⟩

/-- Python's `str.startswith`. -/
def strStarts (s p : String) : Bool := begChars p.data s.data

/-- Python's `str.endswith`. -/
def strEnds (s p : String) : Bool := begChars p.data.reverse s.data.reverse

/-- Python's slice `s[n:]` (drop the first `n` characters). -/
def strDropN (s : String) (n : Nat) : String := ⟨s.data.drop n⟩

/-- Python's slice `s[:-n]` (drop the last `n` characters). -/
def strDropR (s : String) (n : Nat) : String := ⟨s.data.take (s.data.length - n)⟩

/-- Python's `pat in s` on strings. -/
def containsSubS (pat s : String) : Bool := containsSub pat.data s.data

/-- Every character of the string is `str.strip` whitespace. -/
abbrev wsStr (s : String) : Prop := ∀ c ∈ s.data, pyWs c = true

/-! ## Standards normalizer (app.py, `read_standards_file`, lines 27-61) -/

/-- Failure taxonomy of the normalizer, as named by the specification:
`unsupportedFormat` models the unsupported-extension branch (app.py line
34, surfaced as an error with no table returned) and `schemaError` models
the failure of the final canonical-column selection (app.py line 61, a
`KeyError` from pandas when a required column is absent after mapping). -/
inductive StdError where
  | unsupportedFormat
  | schemaError
deriving DecidableEq

/-- A parsed tabular file: the row count together with the columns, each a
header paired with that column's cell values (pandas DataFrames are keyed
by column label, and labels may repeat after renaming). -/
structure Df where
  nrows : Nat
  cols : List (String × List String)
deriving DecidableEq

/-- Line 38: `df.columns = df.columns.str.strip()`. -/
def stripHeaders (df : Df) : Df := ⟨df.nrows, df.cols.map (fun c => (pystripS c.1, c.2))⟩

/-- Line 46: `'id' in col_lower or 'standard' in col_lower`. -/
def idRule (l : String) : Bool := containsSubS "id" l || containsSubS "standard" l

/-- Line 48: `'category' in col_lower or 'type' in col_lower`. -/
def catRule (l : String) : Bool := containsSubS "category" l || containsSubS "type" l

/-- Line 50: `'requirement' in col_lower or 'standard' in col_lower`. -/
def reqRule (l : String) : Bool := containsSubS "requirement" l || containsSubS "standard" l

/-- Line 52: `'description' in col_lower or 'detail' in col_lower`. -/
def descRule (l : String) : Bool := containsSubS "description" l || containsSubS "detail" l

/-- Lines 44-53: the elif chain assigning a canonical name to one (already
stripped) header, first match wins; unmatched headers get no entry. -/
def colMap (col : String) : Option String :=
  let l := lowerS col
  if idRule l then some "ID"
  else if catRule l then some "Category"
  else if reqRule l then some "Requirement"
  else if descRule l then some "Description"
  else none

/-- Line 55: `df.rename(columns=col_mapping)` — mapped headers are replaced
by their canonical name, unmapped headers stay as they are. -/
def renameCols (df : Df) : Df :=
  ⟨df.nrows, df.cols.map (fun c => match colMap c.1 with | some n => (n, c.2) | none => c)⟩

/-- Membership of a column label, as pandas' `n in df.columns`. -/
def hasCol (df : Df) (n : String) : Bool := df.cols.any (fun c => c.1 == n)

/-- Lines 57-59: `if 'Description' not in df.columns: df['Description'] = ''`
appends an all-empty column when none carries that label. -/
def ensureDescription (df : Df) : Df :=
  if hasCol df "Description" then df
  else ⟨df.nrows, df.cols ++ [("Description", List.replicate df.nrows "")]⟩

/-- The canonical column list of line 61. -/
def canonCols : List String := ["ID", "Category", "Requirement", "Description"]

/-- Line 61: `df[['ID', 'Category', 'Requirement', 'Description']]`.  With a
non-unique column index pandas returns, for each requested label in order,
every column bearing that label; a missing label raises `KeyError`, which
the specification's taxonomy calls `SchemaError`. -/
def selectCols (df : Df) (names : List String) : Except StdError Df :=
  if names.all (fun n => hasCol df n) then
    .ok ⟨df.nrows, names.flatMap (fun n => df.cols.filter (fun c => c.1 == n))⟩
  else .error .schemaError

/-- Lines 38-61 of `read_standards_file`: header stripping, heuristic
column mapping, Description synthesis and canonical selection. -/
def normalize_standards (df : Df) : Except StdError Df :=
  selectCols (ensureDescription (renameCols (stripHeaders df))) canonCols

/-- Lines 29-61 of `read_standards_file`: the extension dispatch of lines
29-35 (anything but `.csv`/`.xlsx`/`.xls` is rejected with no table
returned) followed by normalization.  The actual CSV/Excel decoding is the
external tabular reader of spec §6; its parsed output is the `df` input. -/
def read_standards_file (name : String) (df : Df) : Except StdError Df :=
  if strEnds name ".csv" || strEnds name ".xlsx" || strEnds name ".xls" then
    normalize_standards df
  else .error .unsupportedFormat

/-- The composite header resolution applied to every source header: strip
(line 38) then the elif chain (lines 44-53). -/
def resolveHeader (h : String) : Option String := colMap (pystripS h)

/-! ## Compliance analyzer (app.py, `analyze_compliance`, lines 63-123) -/

/-- One normalized standard record, as consumed by the prompt builder
(spec §3 StandardRecord). -/
structure StdRow where
  id : String
  category : String
  requirement : String
  description : String

/-- Lines 67-71: the standards block of the prompt.  Each row appends the
line `"\n{ID} - {Category}: {Requirement}\n"` and then, when the
Description cell is non-empty (Python truthiness of a string), the line
`"Description: {Description}\n"`. -/
def standards_text (rows : List StdRow) : String :=
  rows.foldl
    (fun acc r =>
      (acc ++ ("\n" ++ r.id ++ " - " ++ r.category ++ ": " ++ r.requirement ++ "\n")) ++
        (if r.description == "" then "" else "Description: " ++ r.description ++ "\n"))
    ""

/-- JSON values, as produced by `json.loads`.  Numbers keep their lexical
form (their numeric value plays no role in this program). -/
inductive Json where
  | null
  | bool (b : Bool)
  | num (raw : String)
  | str (s : String)
  | arr (elems : List Json)
  | obj (fields : List (String × Json))

/-- Recogniser for a top-level JSON array. -/
def isArrJ : Json → Bool
  | .arr _ => true
  | _ => false

/-- Skip JSON whitespace, as the decoder's whitespace regex does. -/
def skipWs (cs : List Char) : List Char := cs.dropWhile jsonWs

/-- Characters that can begin a JSON value. -/
def startVal (c : Char) : Bool :=
  c == '\x7b' || c == '[' || c == '\x22' || c == 't' || c == 'f' ||
    c == 'n' || c == '-' || c.isDigit

/-- Consume the literal `lit` from the front of `cs`. -/
def litRest (lit : List Char) (cs : List Char) : Option (List Char) :=
  if begChars lit cs then some (cs.drop lit.length) else none

/-- Value of one hexadecimal digit. -/
def hexVal (c : Char) : Option Nat :=
  if '0' ≤ c && c ≤ '9' then some (c.toNat - 48)
  else if 'a' ≤ c && c ≤ 'f' then some (c.toNat - 87)
  else if 'A' ≤ c && c ≤ 'F' then some (c.toNat - 55)
  else none

/-- The single-character JSON string escapes. -/
def escSimple (c : Char) : Option Char :=
  match c with
  | '\x22' => some '\x22'
  | '\x5c' => some '\x5c'
  | '/' => some '/'
  | 'b' => some '\x08'
  | 'f' => some '\x0c'
  | 'n' => some '\n'
  | 'r' => some '\r'
  | 't' => some '\t'
  | _ => none

/-- Body of a JSON string after the opening quote: returns the decoded
characters and the remainder after the closing quote.  Unescaped control
characters are rejected, as `json.loads` does in strict mode. -/
def parseStringBody : Nat → List Char → List Char → Option (List Char × List Char)
  | 0, _, _ => none
  | _ + 1, _, [] => none
  | fuel + 1, acc, c :: cs =>
    if c == '\x22' then some (acc.reverse, cs)
    else if c == '\x5c' then
      match cs with
      | [] => none
      | e :: cs2 =>
        if e == 'u' then
          match cs2 with
          | h1 :: h2 :: h3 :: h4 :: cs3 =>
            match hexVal h1, hexVal h2, hexVal h3, hexVal h4 with
            | some a, some b, some c3, some d =>
              parseStringBody fuel (Char.ofNat (((a * 16 + b) * 16 + c3) * 16 + d) :: acc) cs3
            | _, _, _, _ => none
          | _ => none
        else
          match escSimple e with
          | some d => parseStringBody fuel (d :: acc) cs2
          | none => none
    else if c.toNat < 32 then none
    else parseStringBody fuel (c :: acc) cs

/-- Integer part of a JSON number: `0` or a nonzero digit then digits. -/
def lexInt : List Char → Option (List Char × List Char)
  | [] => none
  | c :: cs =>
    if c == '0' then some ([c], cs)
    else if c.isDigit then
      let s := cs.span (fun d => d.isDigit)
      some (c :: s.1, s.2)
    else none

/-- Optional fraction part `.digits` of a JSON number. -/
def lexFrac (cs : List Char) : List Char × List Char :=
  match cs with
  | '.' :: cs2 =>
    match cs2.span (fun d => d.isDigit) with
    | ([], _) => ([], '.' :: cs2)
    | (ds, rest) => ('.' :: ds, rest)
  | _ => ([], cs)

/-- Optional exponent part `e[+-]digits` of a JSON number. -/
def lexExp (cs : List Char) : List Char × List Char :=
  match cs with
  | e :: cs2 =>
    if e == 'e' || e == 'E' then
      let sg : List Char × List Char :=
        match cs2 with
        | s :: cs3 => if s == '+' || s == '-' then ([s], cs3) else ([], cs2)
        | [] => ([], cs2)
      match sg.2.span (fun d => d.isDigit) with
      | ([], _) => ([], e :: cs2)
      | (ds, rest) => (e :: sg.1 ++ ds, rest)
    else ([], e :: cs2)
  | [] => ([], [])

/-- Lexes a JSON number (the decoder's NUMBER regex): optional minus,
integer part, optional fraction, optional exponent. -/
def lexNumber (cs : List Char) : Option (List Char × List Char) :=
  let sg : List Char × List Char :=
    match cs with
    | '-' :: t => (['-'], t)
    | _ => ([], cs)
  match lexInt sg.2 with
  | none => none
  | some (ip, cs2) =>
    let fp := lexFrac cs2
    let ep := lexExp fp.2
    some (sg.1 ++ ip ++ fp.1 ++ ep.1, ep.2)

mutual

/-- Recursive-descent JSON value parser (fuel-indexed; the fuel used at the
top level always suffices, as each nesting level consumes input). -/
def parseVal : Nat → List Char → Option (Json × List Char)
  | 0, _ => none
  | fuel + 1, cs =>
    match skipWs cs with
    | [] => none
    | c :: rest =>
      if startVal c then
        if c == 'n' then
          match litRest ("ull".data) rest with
          | some r => some (.null, r)
          | none => none
        else if c == 't' then
          match litRest ("rue".data) rest with
          | some r => some (.bool true, r)
          | none => none
        else if c == 'f' then
          match litRest ("alse".data) rest with
          | some r => some (.bool false, r)
          | none => none
        else if c == '\x22' then
          match parseStringBody (fuel + 1) [] rest with
          | some (s, r) => some (.str ⟨s⟩, r)
          | none => none
        else if c == '[' then
          match skipWs rest with
          | ']' :: r2 => some (.arr [], r2)
          | r2 => parseItems fuel r2 []
        else if c == '\x7b' then
          match skipWs rest with
          | '\x7d' :: r2 => some (.obj [], r2)
          | r2 => parseFields fuel r2 []
        else
          match lexNumber (c :: rest) with
          | some (ds, r) => some (.num ⟨ds⟩, r)
          | none => none
      else none

/-- Comma-separated array items up to the closing bracket. -/
def parseItems : Nat → List Char → List Json → Option (Json × List Char)
  | 0, _, _ => none
  | fuel + 1, cs, acc =>
    match parseVal fuel cs with
    | none => none
    | some (v, rest) =>
      match skipWs rest with
      | ',' :: r2 => parseItems fuel r2 (v :: acc)
      | ']' :: r2 => some (.arr (v :: acc).reverse, r2)
      | _ => none

/-- Comma-separated object members up to the closing brace. -/
def parseFields : Nat → List Char → List (String × Json) → Option (Json × List Char)
  | 0, _, _ => none
  | fuel + 1, cs, acc =>
    match skipWs cs with
    | '\x22' :: r1 =>
      match parseStringBody (fuel + 1) [] r1 with
      | none => none
      | some (k, r2) =>
        match skipWs r2 with
        | ':' :: r3 =>
          match parseVal fuel r3 with
          | none => none
          | some (v, r4) =>
            match skipWs r4 with
            | ',' :: r5 => parseFields fuel r5 ((⟨k⟩, v) :: acc)
            | '\x7d' :: r5 => some (.obj ((⟨k⟩, v) :: acc).reverse, r5)
            | _ => none
        | _ => none
    | _ => none

end

/-- Python's `json.loads`: parse one JSON value and require that only
whitespace remains (otherwise the decoder raises, e.g. "Extra data"). -/
def json_loads (s : String) : Option Json :=
  match parseVal (s.data.length + 1) s.data with
  | some (v, rest) => if (skipWs rest).isEmpty then some v else none
  | none => none

/-- Analyzer failure taxonomy from the specification: `malformedResponse`
models the `json.JSONDecodeError` escaping `json.loads` at line 118 (its
`doc` attribute holds the exact string handed to the parser), caught by
the blanket handler at line 121; `serviceError` models failures of the
external API call itself (spec §4.2). -/
inductive AnalysisError where
  | malformedResponse (doc : String)
  | serviceError (msg : String)

/-- Lines 109-116: trim the reply, strip one leading fence marker
(preferring the 7-character `js`-tagged form), strip one trailing fence
marker, trim again. -/
def clean_response (s : String) : String :=
  let t0 := pystripS s
  let t1 := if strStarts t0 "```json" then strDropN t0 7 else t0
  let t2 := if strStarts t1 "```" then strDropN t1 3 else t1
  let t3 := if strEnds t2 "```" then strDropR t2 3 else t2
  pystripS t3

/-- Lines 106-119: the response-handling stage of `analyze_compliance` on
the reply text returned by the model: cleanup then `json.loads`; a parse
failure surfaces the decode error, which carries the cleaned text as its
`doc`. -/
def analyze_parse_response (response_text : String) : Except AnalysisError Json :=
  let cleaned := clean_response response_text
  match json_loads cleaned with
  | some v => .ok v
  | none => .error (.malformedResponse cleaned)

/-! ## Helper lemmas: stripping, matching, lower-casing -/

theorem data_mk (cs : List Char) : (String.mk cs).data = cs := rfl

theorem mk_data (s : String) : String.mk s.data = s := rfl

theorem stripR_eq_rdrop (cs : List Char) : stripR cs = List.rdropWhile pyWs cs := rfl

theorem stripL_cons_pos {c : Char} (h : pyWs c = true) (cs : List Char) :
    stripL (c :: cs) = stripL cs := by
  simp [stripL, List.dropWhile_cons, h]

theorem stripL_cons_neg {c : Char} (h : pyWs c = false) (cs : List Char) :
    stripL (c :: cs) = c :: cs := by
  simp [stripL, List.dropWhile_cons, h]

theorem strip_cons_ws {c : Char} (h : pyWs c = true) (cs : List Char) :
    pystrip (c :: cs) = pystrip cs := by
  simp [pystrip, stripL_cons_pos h]

theorem stripR_concat_pos {c : Char} (h : pyWs c = true) (cs : List Char) :
    stripR (cs ++ [c]) = stripR cs := by
  rw [stripR_eq_rdrop, stripR_eq_rdrop]
  exact List.rdropWhile_concat_pos _ _ _ h

theorem stripR_concat_neg {c : Char} (h : pyWs c = false) (cs : List Char) :
    stripR (cs ++ [c]) = cs ++ [c] := by
  rw [stripR_eq_rdrop]
  exact List.rdropWhile_concat_neg _ _ _ (by simp [h])

theorem strip_concat_ws {c : Char} (h : pyWs c = true) (cs : List Char) :
    pystrip (cs ++ [c]) = pystrip cs := by
  unfold pystrip stripL
  rw [List.dropWhile_append]
  by_cases he : (List.dropWhile pyWs cs).isEmpty
  · rw [if_pos he]
    have h1 : List.dropWhile pyWs [c] = [] := by simp [List.dropWhile_cons, h]
    have h2 : List.dropWhile pyWs cs = [] := by
      cases hx : List.dropWhile pyWs cs with
      | nil => rfl
      | cons a t => rw [hx] at he; simp [List.isEmpty] at he
    rw [h1, h2]
  · rw [if_neg he]
    exact stripR_concat_pos h _

theorem strip_app_ws_right {w : List Char} (h : ∀ c ∈ w, pyWs c = true) (cs : List Char) :
    pystrip (cs ++ w) = pystrip cs := by
  induction w generalizing cs with
  | nil => simp
  | cons d w' ih =>
    have hassoc : cs ++ d :: w' = (cs ++ [d]) ++ w' := by simp
    rw [hassoc, ih (fun c hc => h c (List.mem_cons_of_mem _ hc)),
      strip_concat_ws (h d (List.mem_cons_self _ _))]

theorem strip_app_ws_left {w : List Char} (h : ∀ c ∈ w, pyWs c = true) (cs : List Char) :
    pystrip (w ++ cs) = pystrip cs := by
  induction w with
  | nil => rfl
  | cons d w' ih =>
    rw [List.cons_append, strip_cons_ws (h d (List.mem_cons_self _ _)),
      ih (fun c hc => h c (List.mem_cons_of_mem _ hc))]

theorem stripL_idem (l : List Char) : stripL (stripL l) = stripL l :=
  List.dropWhile_idempotent pyWs l

theorem stripR_idem (l : List Char) : stripR (stripR l) = stripR l := by
  rw [stripR_eq_rdrop, stripR_eq_rdrop]
  exact List.rdropWhile_idempotent pyWs l

theorem stripL_stripR_of {y : List Char} (h : stripL y = y) :
    stripL (stripR y) = stripR y := by
  induction y using List.reverseRecOn with
  | nil => rfl
  | append_singleton w c ihw =>
    by_cases hc : pyWs c = true
    · rw [stripR_concat_pos hc]
      have hw : stripL w = w := by
        unfold stripL at h
        rw [List.dropWhile_append] at h
        by_cases he : (List.dropWhile pyWs w).isEmpty
        · rw [if_pos he] at h
          simp [List.dropWhile_cons, hc] at h
        · rw [if_neg he] at h
          have h3 := congrArg List.dropLast h
          rw [List.dropLast_concat, List.dropLast_concat] at h3
          exact h3
      exact ihw hw
    · rw [stripR_concat_neg (Bool.eq_false_iff.mpr hc)]
      exact h

theorem stripL_strip (l : List Char) : stripL (pystrip l) = pystrip l :=
  stripL_stripR_of (stripL_idem l)

theorem stripR_strip (l : List Char) : stripR (pystrip l) = pystrip l :=
  stripR_idem (stripL l)

theorem strip_idem (l : List Char) : pystrip (pystrip l) = pystrip l := by
  show stripR (stripL (pystrip l)) = pystrip l
  rw [stripL_strip, stripR_strip]

theorem head_stripL_false {l : List Char} {c : Char} {t : List Char}
    (h : stripL l = c :: t) : pyWs c = false := by
  induction l with
  | nil => exact absurd h (by simp [stripL])
  | cons d l' ih =>
    rw [stripL, List.dropWhile_cons] at h
    by_cases hd : pyWs d = true
    · rw [if_pos hd] at h
      exact ih h
    · rw [if_neg hd] at h
      cases h
      exact Bool.eq_false_iff.mpr hd

theorem strip_id_of_ends {c d : Char} (h1 : pyWs c = false) (h2 : pyWs d = false)
    (x : List Char) : pystrip (c :: (x ++ [d])) = c :: (x ++ [d]) := by
  unfold pystrip
  rw [stripL_cons_neg h1]
  have hassoc : c :: (x ++ [d]) = (c :: x) ++ [d] := by simp
  rw [hassoc, stripR_concat_neg h2]

theorem jsonWs_imp_pyWs {c : Char} (h : jsonWs c = true) : pyWs c = true := by
  simp only [jsonWs, Bool.or_eq_true] at h
  rcases h with ((h | h) | h) | h <;> simp [pyWs, h]

theorem skipWs_of_stripL {x : List Char} (h : stripL x = x) : skipWs x = x := by
  cases x with
  | nil => rfl
  | cons c t =>
    have hc : pyWs c = false := head_stripL_false h
    have hj : jsonWs c = false := by
      cases hjc : jsonWs c
      · rfl
      · exact absurd (jsonWs_imp_pyWs hjc) (by simp [hc])
    simp [skipWs, List.dropWhile_cons, hj]

theorem begChars_append_self (p r : List Char) : begChars p (p ++ r) = true := by
  induction p with
  | nil => rfl
  | cons c p' ih => simp [begChars, ih]

theorem begChars_of_append {p q s : List Char} (hp : begChars (p ++ q) s = true) :
    begChars p s = true := by
  induction p generalizing s with
  | nil => rfl
  | cons c p' ih =>
    cases s with
    | nil => exact absurd hp (by simp [begChars])
    | cons d s' =>
      rw [List.cons_append, begChars, Bool.and_eq_true] at hp
      rw [begChars, Bool.and_eq_true]
      exact ⟨hp.1, ih hp.2⟩

theorem pyWs_pyLower (c : Char) : pyWs (pyLower c) = pyWs c := by
  unfold pyLower
  split <;> rfl

theorem stripL_map_lower (l : List Char) :
    stripL (l.map pyLower) = (stripL l).map pyLower := by
  unfold stripL
  rw [List.dropWhile_map]
  have hfun : (pyWs ∘ pyLower) = pyWs := funext pyWs_pyLower
  rw [hfun]

theorem strip_map_lower (l : List Char) :
    pystrip (l.map pyLower) = (pystrip l).map pyLower := by
  show stripR (stripL (l.map pyLower)) = _
  rw [stripL_map_lower]
  show (stripL ((List.map pyLower (stripL l)).reverse)).reverse = _
  rw [← List.map_reverse, stripL_map_lower, ← List.map_reverse]
  rfl

theorem lowerS_strip_comm (s : String) : lowerS (pystripS s) = pystripS (lowerS s) := by
  unfold lowerS pystripS
  rw [data_mk, data_mk, strip_map_lower]

theorem colMap_eq_of_lower {a b : String} (h : lowerS a = lowerS b) : colMap a = colMap b := by
  unfold colMap
  rw [h]

theorem str_foldl_shift (l : List String) (a : String) :
    List.foldl (fun x y => x ++ y) a l = a ++ List.foldl (fun x y => x ++ y) "" l := by
  induction l generalizing a with
  | nil => simp [String.append_empty]
  | cons s t ih =>
    simp only [List.foldl_cons]
    rw [ih (a ++ s), ih ("" ++ s), String.empty_append, String.append_assoc]

theorem join_cons (s : String) (l : List String) :
    String.join (s :: l) = s ++ String.join l := by
  show List.foldl (fun x y => x ++ y) "" (s :: l) = _
  simp only [List.foldl_cons]
  rw [str_foldl_shift, String.empty_append]
  rfl

theorem foldl_two_append (A B : StdRow → String) (rows : List StdRow) (acc : String) :
    rows.foldl (fun a r => (a ++ A r) ++ B r) acc
      = acc ++ String.join (rows.map (fun r => A r ++ B r)) := by
  induction rows generalizing acc with
  | nil => simp [String.join, String.append_empty]
  | cons r t ih =>
    simp only [List.foldl_cons, List.map_cons]
    rw [ih, join_cons]
    simp [String.append_assoc]

/-! ## Helper lemmas: the normalizer pipeline -/

theorem colMap_mem_canon {h n : String} (hm : colMap h = some n) : n ∈ canonCols := by
  simp only [colMap] at hm
  split_ifs at hm
  all_goals
    first
      | exact Option.noConfusion hm
      | (injection hm with hn; subst hn; decide)

theorem colMap_ID : colMap "ID" = some "ID" := by decide

theorem colMap_Category : colMap "Category" = some "Category" := by decide

theorem colMap_Requirement : colMap "Requirement" = some "Requirement" := by decide

theorem colMap_Description : colMap "Description" = some "Description" := by decide

theorem renameCols_stripHeaders (df : Df) :
    (renameCols (stripHeaders df)).cols
      = df.cols.map (fun c =>
          match colMap (pystripS c.1) with
          | some n => (n, c.2)
          | none => (pystripS c.1, c.2)) := by
  unfold renameCols stripHeaders
  simp only [List.map_map]
  apply List.map_congr_left
  intro c _
  simp only [Function.comp]

theorem colMap_canon_ne_none {s n : String} (hn : n ∈ canonCols) (hs : s = n) :
    colMap s ≠ none := by
  subst hs
  simp only [canonCols, List.mem_cons, List.not_mem_nil, or_false] at hn
  rcases hn with h | h | h | h <;> subst h <;> decide

theorem renamed_fst (c : String × List String) {n : String} (hn : n ∈ canonCols) :
    ((match colMap (pystripS c.1) with
      | some m => (m, c.2)
      | none => (pystripS c.1, c.2)).1 == n) = (colMap (pystripS c.1) == some n) := by
  cases hm : colMap (pystripS c.1) with
  | some m => rfl
  | none =>
    have hne : (pystripS c.1 == n) = false := by
      cases hb : (pystripS c.1 == n)
      · rfl
      · exact absurd hm (colMap_canon_ne_none hn (by simpa using hb))
    simpa using hne

theorem filter_renamed_list (L : List (String × List String)) {n : String}
    (hn : n ∈ canonCols) :
    (L.map (fun c =>
        match colMap (pystripS c.1) with
        | some m => (m, c.2)
        | none => (pystripS c.1, c.2))).filter (fun c => c.1 == n)
      = (L.filter (fun c => colMap (pystripS c.1) == some n)).map
          (fun c => (n, c.2)) := by
  induction L with
  | nil => rfl
  | cons c t ih =>
    simp only [List.map_cons, List.filter_cons]
    rw [renamed_fst c hn]
    cases hb : (colMap (pystripS c.1) == some n)
    · simpa [hb] using ih
    · have hq : colMap (pystripS c.1) = some n := by simpa using hb
      simp [hb, hq, ih]

theorem filter_renamed (df : Df) {n : String} (hn : n ∈ canonCols) :
    (renameCols (stripHeaders df)).cols.filter (fun c => c.1 == n)
      = (df.cols.filter (fun c => colMap (pystripS c.1) == some n)).map
          (fun c => (n, c.2)) := by
  rw [renameCols_stripHeaders]
  exact filter_renamed_list df.cols hn

theorem hasCol_renamed_of {df : Df} {c : String × List String} (hc : c ∈ df.cols)
    {n : String} (hm : colMap (pystripS c.1) = some n) :
    hasCol (renameCols (stripHeaders df)) n = true := by
  unfold hasCol
  rw [List.any_eq_true]
  refine ⟨(n, c.2), ?_, by simp⟩
  rw [renameCols_stripHeaders]
  exact List.mem_map.mpr ⟨c, hc, by simp [hm]⟩

theorem hasCol_ensure_other {df : Df} {n : String} (hne : ("Description" == n) = false) :
    hasCol (ensureDescription df) n = hasCol df n := by
  unfold ensureDescription
  split
  · rfl
  · unfold hasCol
    simp [List.any_append, hne]

theorem hasCol_ensure_desc (df : Df) : hasCol (ensureDescription df) "Description" = true := by
  unfold ensureDescription
  split
  · next h => exact h
  · unfold hasCol
    simp [List.any_append]

theorem ensure_nrows (df : Df) : (ensureDescription df).nrows = df.nrows := by
  unfold ensureDescription
  split <;> rfl

theorem filter_name_filter_name {cols : List (String × List String)} {m n : String} :
    (cols.filter (fun c => c.1 == m)).filter (fun c => c.1 == n)
      = if m = n then cols.filter (fun c => c.1 == n) else [] := by
  split
  · next heq =>
    subst heq
    rw [List.filter_filter]
    simp [Bool.and_self]
  · next hne =>
    apply List.filter_eq_nil_iff.mpr
    intro a ha
    have h1 : (a.1 == m) = true := (List.mem_filter.mp ha).2
    intro h2
    exact hne ((eq_of_beq h1).symm.trans (eq_of_beq h2))

/-! ## Claim theorems -/

/-- C1: for every tabular input in which, after header normalization and
column mapping, at least one of the canonical columns ID, Category or
Requirement is absent, normalization fails with SchemaError and returns no
record list at all. -/
theorem claim_C1_missing_required_column_schema_error (df : Df)
    (h : hasCol (renameCols (stripHeaders df)) "ID" = false ∨
         hasCol (renameCols (stripHeaders df)) "Category" = false ∨
         hasCol (renameCols (stripHeaders df)) "Requirement" = false) :
    normalize_standards df = .error .schemaError := by
  unfold normalize_standards selectCols
  have eID := @hasCol_ensure_other (renameCols (stripHeaders df)) "ID" (by decide)
  have eCat := @hasCol_ensure_other (renameCols (stripHeaders df)) "Category" (by decide)
  have eReq := @hasCol_ensure_other (renameCols (stripHeaders df)) "Requirement" (by decide)
  have hall : canonCols.all
      (fun n => hasCol (ensureDescription (renameCols (stripHeaders df))) n) = false := by
    rcases h with h | h | h <;> simp [canonCols, eID, eCat, eReq, h]
  rw [hall]
  rfl

/-- C1 witness: a table whose headers map to Category and Requirement but
to no ID resolves to a SchemaError. -/
theorem claim_C1_witness :
    (hasCol (renameCols (stripHeaders ⟨1, [("category", ["x"]), ("requirement", ["y"])]⟩)) "ID"
        = false ∨
      hasCol (renameCols (stripHeaders ⟨1, [("category", ["x"]), ("requirement", ["y"])]⟩))
        "Category" = false ∨
      hasCol (renameCols (stripHeaders ⟨1, [("category", ["x"]), ("requirement", ["y"])]⟩))
        "Requirement" = false) ∧
    normalize_standards ⟨1, [("category", ["x"]), ("requirement", ["y"])]⟩
      = .error .schemaError :=
  ⟨by decide, claim_C1_missing_required_column_schema_error _ (by decide)⟩

/-- C4: any header whose stripped lower-cased form contains the substring
"standard" is captured by the ID rule (the first branch of the elif
chain), so it can never reach the Requirement rule. -/
theorem claim_C4_standard_header_maps_to_ID (h : String)
    (hs : containsSubS "standard" (lowerS (pystripS h)) = true) :
    resolveHeader h = some "ID" := by
  have hid : idRule (lowerS (pystripS h)) = true := by
    unfold idRule
    rw [hs]
    simp
  unfold resolveHeader colMap
  simp [hid]

/-- C4 witness: the header "Standard Requirement" contains "standard" and
resolves to ID, not Requirement. -/
theorem claim_C4_witness :
    containsSubS "standard" (lowerS (pystripS "Standard Requirement")) = true ∧
    resolveHeader "Standard Requirement" = some "ID" :=
  ⟨by decide, claim_C4_standard_header_maps_to_ID _ (by decide)⟩

/-- C7: an uploaded standards file whose name ends in none of ".csv",
".xlsx", ".xls" is rejected with UnsupportedFormatError and no normalized
table is produced. -/
theorem claim_C7_unsupported_extension_rejected (name : String) (df : Df)
    (h1 : strEnds name ".csv" = false) (h2 : strEnds name ".xlsx" = false)
    (h3 : strEnds name ".xls" = false) :
    read_standards_file name df = .error .unsupportedFormat := by
  unfold read_standards_file
  rw [h1, h2, h3]
  rfl

/-- C7 witness: a ".txt" upload is rejected. -/
theorem claim_C7_witness :
    strEnds "standards.txt" ".csv" = false ∧
    strEnds "standards.txt" ".xlsx" = false ∧
    strEnds "standards.txt" ".xls" = false ∧
    read_standards_file "standards.txt" ⟨0, []⟩ = .error .unsupportedFormat :=
  ⟨by decide, by decide, by decide,
    claim_C7_unsupported_extension_rejected _ _ (by decide) (by decide) (by decide)⟩

/-- C6: the standards block of the prompt is a deterministic pure function
of the record sequence: it is exactly the concatenation, over the records
in order, of the line "{id} - {category}: {requirement}" (with its
surrounding newlines) followed by a "Description: {description}" line
exactly when the description is non-empty; and the same sequence renders
byte-identically across any two calls. -/
theorem claim_C6_standards_render_deterministic (rows : List StdRow) :
    standards_text rows
      = String.join (rows.map (fun r =>
          ("\n" ++ r.id ++ " - " ++ r.category ++ ": " ++ r.requirement ++ "\n") ++
            (if r.description == "" then ""
             else "Description: " ++ r.description ++ "\n")))
    ∧ standards_text rows = standards_text rows := by
  refine ⟨?_, rfl⟩
  have h1 := foldl_two_append
    (fun r => "\n" ++ r.id ++ " - " ++ r.category ++ ": " ++ r.requirement ++ "\n")
    (fun r => if r.description == "" then "" else "Description: " ++ r.description ++ "\n")
    rows ""
  exact h1.trans (String.empty_append _)

/-- C8: header matching is invariant under surrounding whitespace padding
and under casing, and " ID ", "id", "Standard ID" all resolve to ID. -/
theorem claim_C8_header_matching_invariance :
    (∀ (h w1 w2 : String), wsStr w1 → wsStr w2 →
        resolveHeader (w1 ++ h ++ w2) = resolveHeader h) ∧
    (∀ h h' : String, lowerS h = lowerS h' → resolveHeader h = resolveHeader h') ∧
    (resolveHeader " ID " = some "ID" ∧ resolveHeader "id" = some "ID" ∧
      resolveHeader "Standard ID" = some "ID") := by
  refine ⟨?_, ?_, by decide, by decide, by decide⟩
  · intro h w1 w2 hw1 hw2
    have hd : (w1 ++ h ++ w2).data = w1.data ++ (h.data ++ w2.data) := by
      rw [String.data_append, String.data_append, List.append_assoc]
    have hstr : pystrip (w1 ++ h ++ w2).data = pystrip h.data := by
      rw [hd, strip_app_ws_left hw1, strip_app_ws_right hw2]
    unfold resolveHeader pystripS
    rw [hstr]
  · intro h h' hl
    unfold resolveHeader
    apply colMap_eq_of_lower
    rw [lowerS_strip_comm, lowerS_strip_comm, hl]

/-- C8 witness: whitespace padding and a casing variant of concrete
headers resolve identically. -/
theorem claim_C8_witness :
    wsStr " " ∧ wsStr "\t " ∧
    resolveHeader (" " ++ "ID" ++ "\t ") = resolveHeader "ID" ∧
    lowerS "Standard ID" = lowerS "sTaNdArD iD" ∧
    resolveHeader "Standard ID" = resolveHeader "sTaNdArD iD" :=
  ⟨by decide, by decide,
    claim_C8_header_matching_invariance.1 "ID" " " "\t " (by decide) (by decide),
    by decide,
    claim_C8_header_matching_invariance.2.1 "Standard ID" "sTaNdArD iD" (by decide)⟩

/-! ## Helper lemmas: response cleanup -/

theorem pystripS_idem (s : String) : pystripS (pystripS s) = pystripS s := by
  unfold pystripS
  rw [data_mk, strip_idem]

theorem strStarts_fence_of_json {s : String} (h : strStarts s "```" = false) :
    strStarts s "```json" = false := by
  cases hb : strStarts s "```json"
  · rfl
  · exfalso
    unfold strStarts at hb h
    have hsplit : begChars (("```" : String).data ++ ("json" : String).data) s.data = true := by
      rw [show ("```" : String).data ++ ("json" : String).data
          = ("```json" : String).data from rfl]
      exact hb
    exact absurd (begChars_of_append hsplit) (by simp [h])

theorem clean_of_nofence (r : String) (h1 : strStarts (pystripS r) "```" = false)
    (h2 : strEnds (pystripS r) "```" = false) :
    clean_response r = pystripS r := by
  have h0 : strStarts (pystripS r) "```json" = false := strStarts_fence_of_json h1
  simp only [clean_response, h0, h1, h2, Bool.false_eq_true, if_false]
  exact pystripS_idem r

theorem fenced_data (j : String) :
    ("```json\n" ++ j ++ "\n```").data
      = '\x60' :: ((("``json\n" : String).data ++ (j.data ++ ("\n``" : String).data))
          ++ ['\x60']) := by
  rw [String.data_append, String.data_append]
  rw [show ("```json\n" : String).data = '\x60' :: ("``json\n" : String).data from rfl]
  rw [show ("\n```" : String).data = ("\n``" : String).data ++ ['\x60'] from rfl]
  simp [List.append_assoc]

theorem fenced_data_start (j : String) :
    ("```json\n" ++ j ++ "\n```").data
      = ("```json" : String).data ++ ('\n' :: (j.data ++ ("\n```" : String).data)) := by
  rw [String.data_append, String.data_append]
  rw [show ("```json\n" : String).data = ("```json" : String).data ++ ['\n'] from rfl]
  simp [List.append_assoc]

theorem rem_shape (j : String) :
    '\n' :: (j.data ++ ("\n```" : String).data)
      = ('\n' :: (j.data ++ ['\n'])) ++ ("```" : String).data := by
  rw [show ("\n```" : String).data = '\n' :: ("```" : String).data from rfl]
  simp

theorem clean_of_fenced (j : String) :
    clean_response ("```json\n" ++ j ++ "\n```") = pystripS j := by
  have hstrip : pystripS ("```json\n" ++ j ++ "\n```") = "```json\n" ++ j ++ "\n```" := by
    unfold pystripS
    rw [fenced_data j, strip_id_of_ends (by decide) (by decide), ← fenced_data j]
  have hstart7 : strStarts (pystripS ("```json\n" ++ j ++ "\n```")) "```json" = true := by
    rw [hstrip]
    unfold strStarts
    rw [fenced_data_start j]
    exact begChars_append_self _ _
  have hdrop : strDropN (pystripS ("```json\n" ++ j ++ "\n```")) 7
      = ⟨'\n' :: (j.data ++ ("\n```" : String).data)⟩ := by
    rw [hstrip]
    unfold strDropN
    rw [fenced_data_start j]
    rw [show (7 : Nat) = ("```json" : String).data.length from rfl]
    rw [List.drop_left]
  have hnostart3 :
      strStarts (⟨'\n' :: (j.data ++ ("\n```" : String).data)⟩ : String) "```" = false := by
    unfold strStarts
    rw [data_mk]
    rw [show ("```" : String).data = '\x60' :: ('\x60' :: ('\x60' :: [])) from rfl]
    rw [begChars]
    simp
  have hend3 :
      strEnds (⟨'\n' :: (j.data ++ ("\n```" : String).data)⟩ : String) "```" = true := by
    unfold strEnds
    rw [data_mk, rem_shape j, List.reverse_append]
    exact begChars_append_self _ _
  have hdropR : strDropR (⟨'\n' :: (j.data ++ ("\n```" : String).data)⟩ : String) 3
      = ⟨'\n' :: (j.data ++ ['\n'])⟩ := by
    unfold strDropR
    rw [data_mk, rem_shape j]
    congr 1
    rw [List.length_append,
      show ("```" : String).data.length = 3 from rfl, Nat.add_sub_cancel]
    exact List.take_left _ _
  have hfin : pystripS (⟨'\n' :: (j.data ++ ['\n'])⟩ : String) = pystripS j := by
    unfold pystripS
    rw [data_mk, strip_cons_ws (by decide), strip_concat_ws (by decide)]
  simp only [clean_response, hstart7, if_true, hdrop, hnostart3, Bool.false_eq_true,
    if_false, hend3, hdropR]
  exact hfin

theorem clean_of_open_fence (r : String)
    (h1 : strStarts (pystripS r) "```json" = true)
    (h2 : strStarts (strDropN (pystripS r) 7) "```" = false)
    (h3 : strEnds (strDropN (pystripS r) 7) "```" = false) :
    clean_response r = pystripS (strDropN (pystripS r) 7) := by
  simp only [clean_response, h1, if_true, h2, h3, Bool.false_eq_true, if_false]

theorem parseVal_head {fuel : Nat} {cs : List Char} {v : Json} {rest : List Char}
    (h : parseVal fuel cs = some (v, rest)) :
    ∃ c t, skipWs cs = c :: t ∧ startVal c = true := by
  cases fuel with
  | zero => exact absurd h (by simp [parseVal])
  | succ f =>
    rw [parseVal] at h
    cases hsk : skipWs cs with
    | nil =>
      rw [hsk] at h
      exact absurd h (by simp)
    | cons c t =>
      rw [hsk] at h
      dsimp only at h
      by_cases hs : startVal c = true
      · exact ⟨c, t, rfl, hs⟩
      · rw [if_neg hs] at h
        exact absurd h (by simp)

theorem json_loads_head {s : String} {v : Json} (h : json_loads s = some v) :
    ∃ c t, skipWs s.data = c :: t ∧ startVal c = true := by
  unfold json_loads at h
  cases hp : parseVal (s.data.length + 1) s.data with
  | none =>
    rw [hp] at h
    exact absurd h (by simp)
  | some pr =>
    obtain ⟨v', rest⟩ := pr
    exact parseVal_head hp

theorem clean_of_trailing_fence {c : Char} {arest : List Char} (a w : String)
    (ha : a.data = c :: arest) (hstripped : pystripS a = a) (hcw : pyWs c = false)
    (hc : ('\x60' == c) = false) (hw : wsStr w) :
    clean_response (a ++ w ++ "```") = a := by
  have hdd : (a ++ w ++ "```").data
      = c :: ((arest ++ (w.data ++ ("``" : String).data)) ++ ['\x60']) := by
    rw [String.data_append, String.data_append, ha]
    rw [show ("```" : String).data = ("``" : String).data ++ ['\x60'] from rfl]
    simp [List.append_assoc]
  have hdd2 : (a ++ w ++ "```").data
      = ((a.data ++ w.data) ++ ("``" : String).data) ++ ['\x60'] := by
    rw [hdd, ha]
    simp [List.append_assoc]
  have hstrip : pystripS (a ++ w ++ "```") = a ++ w ++ "```" := by
    unfold pystripS
    rw [hdd, strip_id_of_ends hcw (by decide), ← hdd]
  have hnostart7 : strStarts (pystripS (a ++ w ++ "```")) "```json" = false := by
    rw [hstrip]
    unfold strStarts
    rw [hdd]
    rw [show ("```json" : String).data
        = '\x60' :: ("``json" : String).data from rfl]
    rw [begChars]
    simp [hc]
  have hnostart3 : strStarts (pystripS (a ++ w ++ "```")) "```" = false := by
    rw [hstrip]
    unfold strStarts
    rw [hdd]
    rw [show ("```" : String).data = '\x60' :: ("``" : String).data from rfl]
    rw [begChars]
    simp [hc]
  have hend3 : strEnds (pystripS (a ++ w ++ "```")) "```" = true := by
    rw [hstrip]
    unfold strEnds
    have hsh : (a ++ w ++ "```").data
        = (a.data ++ w.data) ++ ("```" : String).data := by
      rw [String.data_append, String.data_append]
    rw [hsh, List.reverse_append]
    exact begChars_append_self _ _
  have hdropR : strDropR (pystripS (a ++ w ++ "```")) 3 = ⟨a.data ++ w.data⟩ := by
    rw [hstrip]
    unfold strDropR
    have hsh : (a ++ w ++ "```").data
        = (a.data ++ w.data) ++ ("```" : String).data := by
      rw [String.data_append, String.data_append]
    rw [hsh]
    congr 1
    rw [List.length_append,
      show ("```" : String).data.length = 3 from rfl, Nat.add_sub_cancel]
    exact List.take_left _ _
  have hfin : pystripS (⟨a.data ++ w.data⟩ : String) = a := by
    unfold pystripS
    rw [data_mk, strip_app_ws_right hw]
    have : pystrip a.data = a.data := congrArg String.data hstripped
    rw [this]
  simp only [clean_response, hnostart7, hnostart3, Bool.false_eq_true, if_false,
    hend3, if_true, hdropR]
  exact hfin

/-- C2 counterexample: for the fenced reply "```json\nnot json\n```" the
parse failure carries only the cleaned text "not json"; the raw reply text
is not retrievable from the error, refuting the claim at this input. -/
theorem claim_C2_counterexample :
    analyze_parse_response "```json\nnot json\n```"
        = .error (.malformedResponse "not json") ∧
    ("not json" : String) ≠ "```json\nnot json\n```" :=
  ⟨rfl, by decide⟩

/-- C2 (amended): a reply whose cleaned text fails to parse as JSON makes
the analyzer fail with MalformedResponseError wrapping the decode error,
which preserves the text as submitted to the JSON parser (the reply after
trimming and fence stripping); in particular for the stub reply
"not json", which cleanup leaves unchanged, the raw text "not json" is
retrievable from the error. -/
theorem claim_C2_malformed_response_error :
    (∀ r : String, json_loads (clean_response r) = none →
        analyze_parse_response r = .error (.malformedResponse (clean_response r))) ∧
    analyze_parse_response "not json" = .error (.malformedResponse "not json") := by
  constructor
  · intro r h
    simp [analyze_parse_response, h]
  · rfl

/-- C2 witness: a reply with prose around no JSON fails with the cleaned
text preserved. -/
theorem claim_C2_witness :
    json_loads (clean_response "reply: no array here") = none ∧
    analyze_parse_response "reply: no array here"
      = .error (.malformedResponse (clean_response "reply: no array here")) :=
  ⟨rfl, claim_C2_malformed_response_error.1 "reply: no array here" rfl⟩

/-- C3 counterexample: for j = "[]\n```" the bare reply parses as the
empty array while the fenced reply fails, refuting "for every string j"
as stated. -/
theorem claim_C3_counterexample :
    analyze_parse_response "[]\n```" = .ok (.arr []) ∧
    analyze_parse_response ("```json\n" ++ "[]\n```" ++ "\n```")
        = .error (.malformedResponse "[]\n```") ∧
    (Except.ok (Json.arr []) : Except AnalysisError Json)
        ≠ .error (.malformedResponse "[]\n```") := by
  refine ⟨rfl, rfl, fun h => Except.noConfusion h⟩

/-- C3 (amended): for every string j whose trimmed form neither starts nor
ends with a fence marker, the fenced reply parses identically to the bare
reply; a reply with no fence markers and valid JSON parses unchanged; a
reply with an opening fence marker only still has the remainder passed to
the JSON parser, failing with MalformedResponseError when that remainder
is not valid JSON. -/
theorem claim_C3_fence_stripping :
    (∀ j : String, strStarts (pystripS j) "```" = false →
        strEnds (pystripS j) "```" = false →
        analyze_parse_response ("```json\n" ++ j ++ "\n```")
          = analyze_parse_response j) ∧
    (∀ (r : String) (v : Json), strStarts (pystripS r) "```" = false →
        strEnds (pystripS r) "```" = false →
        json_loads (pystripS r) = some v →
        analyze_parse_response r = .ok v) ∧
    (∀ r : String, strStarts (pystripS r) "```json" = true →
        strStarts (strDropN (pystripS r) 7) "```" = false →
        strEnds (strDropN (pystripS r) 7) "```" = false →
        json_loads (pystripS (strDropN (pystripS r) 7)) = none →
        analyze_parse_response r
          = .error (.malformedResponse (pystripS (strDropN (pystripS r) 7)))) := by
  refine ⟨?_, ?_, ?_⟩
  · intro j h1 h2
    have e1 := clean_of_fenced j
    have e2 := clean_of_nofence j h1 h2
    simp only [analyze_parse_response, e1, e2]
  · intro r v h1 h2 hv
    have e := clean_of_nofence r h1 h2
    simp [analyze_parse_response, e, hv]
  · intro r h1 h2 h3 hnone
    have e := clean_of_open_fence r h1 h2 h3
    simp [analyze_parse_response, e, hnone]

/-- C3 witness: the fenced and bare forms of "[1]" parse identically. -/
theorem claim_C3_witness :
    strStarts (pystripS "[1]") "```" = false ∧
    strEnds (pystripS "[1]") "```" = false ∧
    analyze_parse_response ("```json\n" ++ "[1]" ++ "\n```")
      = analyze_parse_response "[1]" :=
  ⟨by decide, by decide, claim_C3_fence_stripping.1 "[1]" (by decide) (by decide)⟩

/-- C9: a reply that is a valid JSON array (already trimmed) followed by
whitespace and a lone closing fence marker has the trailing "```"
stripped and the array parses successfully. -/
theorem claim_C9_lone_trailing_fence_stripped (a w : String) (v : Json)
    (hp : json_loads a = some v) (_harr : isArrJ v = true)
    (hstr : pystripS a = a) (hw : wsStr w) :
    analyze_parse_response (a ++ w ++ "```") = .ok v := by
  have hdata : pystrip a.data = a.data := congrArg String.data hstr
  have hsl : stripL a.data = a.data := by
    have h0 := stripL_strip a.data
    rw [hdata] at h0
    exact h0
  have hskip : skipWs a.data = a.data := skipWs_of_stripL hsl
  obtain ⟨c, t, hct, hstart⟩ := json_loads_head hp
  rw [hskip] at hct
  have hcw : pyWs c = false := by
    apply head_stripL_false (l := a.data)
    rw [hsl]
    exact hct
  have hc : ('\x60' == c) = false := by
    cases hb : ('\x60' == c)
    · rfl
    · exfalso
      have hec : '\x60' = c := eq_of_beq hb
      rw [← hec] at hstart
      exact absurd hstart (by decide)
  have hclean := clean_of_trailing_fence a w hct hstr hcw hc hw
  simp [analyze_parse_response, hclean, hp]

/-- C9 witness: "[1]" followed by a newline and a lone closing fence
parses as the array [1]. -/
theorem claim_C9_witness :
    json_loads "[1]" = some (.arr [.num "1"]) ∧
    isArrJ (.arr [.num "1"]) = true ∧
    pystripS "[1]" = "[1]" ∧ wsStr "\n" ∧
    analyze_parse_response ("[1]" ++ "\n" ++ "```") = .ok (.arr [.num "1"]) :=
  ⟨rfl, rfl, rfl, by decide,
    claim_C9_lone_trailing_fence_stripped "[1]" "\n" (.arr [.num "1"]) rfl rfl rfl
      (by decide)⟩

/-! ## Helper lemmas: selection with duplicate labels -/

theorem normalize_ok (df : Df)
    (h1 : hasCol (renameCols (stripHeaders df)) "ID" = true)
    (h2 : hasCol (renameCols (stripHeaders df)) "Category" = true)
    (h3 : hasCol (renameCols (stripHeaders df)) "Requirement" = true) :
    normalize_standards df = .ok ⟨df.nrows,
      canonCols.flatMap (fun n =>
        (ensureDescription (renameCols (stripHeaders df))).cols.filter
          (fun c => c.1 == n))⟩ := by
  unfold normalize_standards selectCols
  have eID := @hasCol_ensure_other (renameCols (stripHeaders df)) "ID" (by decide)
  have eCat := @hasCol_ensure_other (renameCols (stripHeaders df)) "Category" (by decide)
  have eReq := @hasCol_ensure_other (renameCols (stripHeaders df)) "Requirement" (by decide)
  have h4 := hasCol_ensure_desc (renameCols (stripHeaders df))
  have hall : canonCols.all
      (fun n => hasCol (ensureDescription (renameCols (stripHeaders df))) n) = true := by
    simp [canonCols, eID, eCat, eReq, h1, h2, h3, h4]
  rw [hall]
  rw [ensure_nrows]
  rfl

theorem filter_ensure_other {df : Df} {n : String} (h : ("Description" == n) = false) :
    (ensureDescription df).cols.filter (fun c => c.1 == n)
      = df.cols.filter (fun c => c.1 == n) := by
  unfold ensureDescription
  split
  · rfl
  · show ((df.cols ++ _).filter _) = _
    rw [List.filter_append]
    simp [h]

theorem filter_nil_of_hasCol_false {df : Df} {n : String} (h : hasCol df n = false) :
    df.cols.filter (fun c => c.1 == n) = [] := by
  apply List.filter_eq_nil_iff.mpr
  intro a ha han
  unfold hasCol at h
  have hall := List.any_eq_false.mp h
  exact hall a ha han

theorem filter_ensure_desc_absent {df : Df} (h : hasCol df "Description" = false) :
    (ensureDescription df).cols.filter (fun c => c.1 == "Description")
      = [("Description", List.replicate df.nrows "")] := by
  unfold ensureDescription
  rw [h]
  show ((df.cols ++ _).filter _) = _
  rw [List.filter_append, filter_nil_of_hasCol_false h]
  rfl

theorem filter_name_self {cols : List (String × List String)} {n : String} :
    (cols.filter (fun c => c.1 == n)).filter (fun c => c.1 == n)
      = cols.filter (fun c => c.1 == n) := by
  rw [filter_name_filter_name, if_pos rfl]

theorem filter_name_ne {cols : List (String × List String)} {m n : String} (h : m ≠ n) :
    (cols.filter (fun c => c.1 == m)).filter (fun c => c.1 == n) = [] := by
  rw [filter_name_filter_name, if_neg h]

theorem sel_filter (cols : List (String × List String)) {n : String} (hn : n ∈ canonCols) :
    (canonCols.flatMap (fun m => cols.filter (fun c => c.1 == m))).filter
        (fun c => c.1 == n)
      = cols.filter (fun c => c.1 == n) := by
  simp only [canonCols, List.mem_cons, List.not_mem_nil, or_false] at hn
  simp only [canonCols, List.flatMap_cons, List.flatMap_nil, List.append_nil,
    List.filter_append]
  rcases hn with h | h | h | h <;> subst h
  · rw [@filter_name_self cols "ID", @filter_name_ne cols "Category" "ID" (by decide),
      @filter_name_ne cols "Requirement" "ID" (by decide),
      @filter_name_ne cols "Description" "ID" (by decide)]
    simp
  · rw [@filter_name_self cols "Category", @filter_name_ne cols "ID" "Category" (by decide),
      @filter_name_ne cols "Requirement" "Category" (by decide),
      @filter_name_ne cols "Description" "Category" (by decide)]
    simp
  · rw [@filter_name_self cols "Requirement",
      @filter_name_ne cols "ID" "Requirement" (by decide),
      @filter_name_ne cols "Category" "Requirement" (by decide),
      @filter_name_ne cols "Description" "Requirement" (by decide)]
    simp
  · rw [@filter_name_self cols "Description",
      @filter_name_ne cols "ID" "Description" (by decide),
      @filter_name_ne cols "Category" "Description" (by decide),
      @filter_name_ne cols "Requirement" "Description" (by decide)]
    simp

theorem hasCol_renamed_desc_false {df : Df}
    (hnone : ∀ c ∈ df.cols, colMap (pystripS c.1) ≠ some "Description") :
    hasCol (renameCols (stripHeaders df)) "Description" = false := by
  cases hb : hasCol (renameCols (stripHeaders df)) "Description"
  · rfl
  · exfalso
    unfold hasCol at hb
    obtain ⟨col, hmem, hcolname⟩ := List.any_eq_true.mp hb
    rw [renameCols_stripHeaders] at hmem
    obtain ⟨c, hc, hceq⟩ := List.mem_map.mp hmem
    have hname : col.1 = "Description" := eq_of_beq hcolname
    cases hm : colMap (pystripS c.1) with
    | some m =>
      rw [hm] at hceq
      dsimp only at hceq
      have hmd : m = "Description" := by
        rw [← hceq] at hname
        simpa using hname
      exact hnone c hc (by rw [hm, hmd])
    | none =>
      rw [hm] at hceq
      dsimp only at hceq
      rw [← hceq] at hname
      have hsd : pystripS c.1 = "Description" := by simpa using hname
      exact absurd hm (colMap_canon_ne_none (by decide) hsd)

theorem length_pos_of_hasCol {df : Df} {n : String} (h : hasCol df n = true) :
    0 < (df.cols.filter (fun c => c.1 == n)).length := by
  obtain ⟨x, hx, hpx⟩ := List.any_eq_true.mp h
  have : x ∈ df.cols.filter (fun c => c.1 == n) := List.mem_filter.mpr ⟨hx, hpx⟩
  exact List.length_pos.mpr (List.ne_nil_of_mem this)

theorem two_le_length_of_two_mem {α : Type} {a b : α} {l : List α}
    (hab : a ≠ b) (ha : a ∈ l) (hb : b ∈ l) : 2 ≤ l.length := by
  induction l with
  | nil => cases ha
  | cons x t _ =>
    rcases List.mem_cons.mp ha with rfl | hat
    · rcases List.mem_cons.mp hb with hbx | hbt
      · exact absurd hbx.symm hab
      · have h1 : 0 < t.length := List.length_pos.mpr (List.ne_nil_of_mem hbt)
        simp only [List.length_cons]
        omega
    · have h1 : 0 < t.length := List.length_pos.mpr (List.ne_nil_of_mem hat)
      simp only [List.length_cons]
      omega

/-- C5 counterexample: the headers "id", "category", "standard" match the
ID rule, the Category rule and the Requirement rule respectively, yet
normalization fails: "standard" is captured by the ID rule first, so no
column is mapped to Requirement and the canonical selection raises. -/
theorem claim_C5_counterexample :
    idRule (lowerS (pystripS "id")) = true ∧
    catRule (lowerS (pystripS "category")) = true ∧
    reqRule (lowerS (pystripS "standard")) = true ∧
    normalize_standards ⟨1, [("id", ["A1"]), ("category", ["Sec"]), ("standard", ["Use MFA"])]⟩
      = .error .schemaError :=
  ⟨by decide, by decide, by decide, rfl⟩

/-- C5 (amended): for every table whose headers include at least one
header that the elif chain actually maps to ID, one it maps to Category
and one it maps to Requirement (merely satisfying a rule is not enough,
since an earlier rule may capture the header first), normalization
succeeds; the ID, Category and Requirement columns of the output are
exactly the mapped source columns with their values, and when no source
column mapped to Description the output's Description column is the empty
string for every row. -/
theorem claim_C5_mapped_variants_normalize (df : Df)
    (hID : ∃ c ∈ df.cols, colMap (pystripS c.1) = some "ID")
    (hCat : ∃ c ∈ df.cols, colMap (pystripS c.1) = some "Category")
    (hReq : ∃ c ∈ df.cols, colMap (pystripS c.1) = some "Requirement") :
    ∃ out : Df, normalize_standards df = .ok out ∧
      out.nrows = df.nrows ∧
      out.cols.filter (fun c => c.1 == "ID")
        = (df.cols.filter (fun c => colMap (pystripS c.1) == some "ID")).map
            (fun c => ("ID", c.2)) ∧
      out.cols.filter (fun c => c.1 == "Category")
        = (df.cols.filter (fun c => colMap (pystripS c.1) == some "Category")).map
            (fun c => ("Category", c.2)) ∧
      out.cols.filter (fun c => c.1 == "Requirement")
        = (df.cols.filter (fun c => colMap (pystripS c.1) == some "Requirement")).map
            (fun c => ("Requirement", c.2)) ∧
      ((∀ c ∈ df.cols, colMap (pystripS c.1) ≠ some "Description") →
        out.cols.filter (fun c => c.1 == "Description")
          = [("Description", List.replicate df.nrows "")]) := by
  obtain ⟨cI, hcI, hmI⟩ := hID
  obtain ⟨cC, hcC, hmC⟩ := hCat
  obtain ⟨cR, hcR, hmR⟩ := hReq
  have h1 := hasCol_renamed_of hcI hmI
  have h2 := hasCol_renamed_of hcC hmC
  have h3 := hasCol_renamed_of hcR hmR
  refine ⟨_, normalize_ok df h1 h2 h3, rfl, ?_, ?_, ?_, ?_⟩
  · rw [sel_filter _ (by decide), filter_ensure_other (by decide),
      filter_renamed df (by decide)]
  · rw [sel_filter _ (by decide), filter_ensure_other (by decide),
      filter_renamed df (by decide)]
  · rw [sel_filter _ (by decide), filter_ensure_other (by decide),
      filter_renamed df (by decide)]
  · intro hnone
    have hnoDesc := hasCol_renamed_desc_false hnone
    rw [sel_filter _ (by decide), filter_ensure_desc_absent hnoDesc]
    rfl

/-- C5 witness: a table with headers " Std ID ", "Category", "Requirement"
normalizes successfully. -/
theorem claim_C5_witness :
    ∃ out : Df,
      normalize_standards
          ⟨2, [(" Std ID ", ["a", "b"]), ("Category", ["c", "d"]),
            ("Requirement", ["e", "f"])]⟩ = .ok out := by
  obtain ⟨out, hok, -⟩ := claim_C5_mapped_variants_normalize
    ⟨2, [(" Std ID ", ["a", "b"]), ("Category", ["c", "d"]), ("Requirement", ["e", "f"])]⟩
    (by decide) (by decide) (by decide)
  exact ⟨out, hok⟩

/-- C10: when two distinct headers are mapped to the same canonical name,
both renamed columns survive into the output: the final selection returns
every column bearing that name, so the normalized output carries the
canonical name at least twice and has more than the four canonical
fields. -/
theorem claim_C10_duplicate_canonical_columns (df : Df) (c1 c2 : String × List String)
    (n : String) (out : Df)
    (h1 : c1 ∈ df.cols) (h2 : c2 ∈ df.cols) (hne : c1.1 ≠ c2.1)
    (hm1 : colMap (pystripS c1.1) = some n) (hm2 : colMap (pystripS c2.1) = some n)
    (hok : normalize_standards df = .ok out) :
    (n, c1.2) ∈ out.cols ∧ (n, c2.2) ∈ out.cols ∧
    2 ≤ (out.cols.filter (fun c => c.1 == n)).length ∧
    4 < out.cols.length := by
  have hn : n ∈ canonCols := colMap_mem_canon hm1
  unfold normalize_standards selectCols at hok
  by_cases hcond : canonCols.all
      (fun m => hasCol (ensureDescription (renameCols (stripHeaders df))) m) = true
  · rw [if_pos hcond] at hok
    injection hok with hout
    subst hout
    have hEnsFilter :
        (ensureDescription (renameCols (stripHeaders df))).cols.filter
            (fun c => c.1 == n)
          = (renameCols (stripHeaders df)).cols.filter (fun c => c.1 == n) := by
      by_cases hd : ("Description" == n) = true
      · have hnd : "Description" = n := eq_of_beq hd
        subst hnd
        have hdesc : hasCol (renameCols (stripHeaders df)) "Description" = true :=
          hasCol_renamed_of h1 hm1
        simp [ensureDescription, hdesc]
      · have hdf : ("Description" == n) = false := by
          revert hd
          cases ("Description" == n) <;> simp
        exact filter_ensure_other hdf
    have hc1f : c1 ∈ df.cols.filter (fun c => colMap (pystripS c.1) == some n) :=
      List.mem_filter.mpr ⟨h1, by simp [hm1]⟩
    have hc2f : c2 ∈ df.cols.filter (fun c => colMap (pystripS c.1) == some n) :=
      List.mem_filter.mpr ⟨h2, by simp [hm2]⟩
    have hfilter :
        ((canonCols.flatMap (fun m =>
            (ensureDescription (renameCols (stripHeaders df))).cols.filter
              (fun c => c.1 == m))).filter (fun c => c.1 == n))
          = (df.cols.filter (fun c => colMap (pystripS c.1) == some n)).map
              (fun c => (n, c.2)) := by
      rw [sel_filter _ hn, hEnsFilter, filter_renamed df hn]
    have hmem1 : (n, c1.2) ∈ (canonCols.flatMap (fun m =>
        (ensureDescription (renameCols (stripHeaders df))).cols.filter
          (fun c => c.1 == m))).filter (fun c => c.1 == n) := by
      rw [hfilter]
      exact List.mem_map.mpr ⟨c1, hc1f, rfl⟩
    have hmem2 : (n, c2.2) ∈ (canonCols.flatMap (fun m =>
        (ensureDescription (renameCols (stripHeaders df))).cols.filter
          (fun c => c.1 == m))).filter (fun c => c.1 == n) := by
      rw [hfilter]
      exact List.mem_map.mpr ⟨c2, hc2f, rfl⟩
    have hc12 : c1 ≠ c2 := fun he => hne (congrArg Prod.fst he)
    have htwo : 2 ≤ ((canonCols.flatMap (fun m =>
        (ensureDescription (renameCols (stripHeaders df))).cols.filter
          (fun c => c.1 == m))).filter (fun c => c.1 == n)).length := by
      rw [hfilter, List.length_map]
      exact two_le_length_of_two_mem hc12 hc1f hc2f
    refine ⟨List.mem_of_mem_filter hmem1, List.mem_of_mem_filter hmem2, htwo, ?_⟩
    have hcond4 := hcond
    simp only [canonCols, List.all_cons, List.all_nil, Bool.and_eq_true,
      Bool.and_true] at hcond4
    obtain ⟨haID, haCat, haReq, haDesc⟩ := hcond4
    have pID := length_pos_of_hasCol haID
    have pCat := length_pos_of_hasCol haCat
    have pReq := length_pos_of_hasCol haReq
    have pDesc := length_pos_of_hasCol haDesc
    have htwo' : 2 ≤ ((ensureDescription (renameCols (stripHeaders df))).cols.filter
        (fun c => c.1 == n)).length := by
      have := htwo
      rw [sel_filter _ hn] at this
      exact this
    show 4 < (canonCols.flatMap (fun m =>
        (ensureDescription (renameCols (stripHeaders df))).cols.filter
          (fun c => c.1 == m))).length
    simp only [canonCols, List.flatMap_cons, List.flatMap_nil, List.append_nil,
      List.length_append]
    simp only [canonCols, List.mem_cons, List.not_mem_nil, or_false] at hn
    rcases hn with h | h | h | h <;> subst h <;> omega
  · rw [if_neg hcond] at hok
    exact absurd hok (by simp)

/-- C10 witness: the table with headers "Standard ID" and "Std Standard"
(both mapped to ID) normalizes to five columns, two of them named ID. -/
theorem claim_C10_witness :
    ("ID", ["A1"]) ∈ (⟨1, [("ID", ["A1"]), ("ID", ["S"]), ("Category", ["Sec"]),
        ("Requirement", ["R"]), ("Description", [""])]⟩ : Df).cols ∧
    ("ID", ["S"]) ∈ (⟨1, [("ID", ["A1"]), ("ID", ["S"]), ("Category", ["Sec"]),
        ("Requirement", ["R"]), ("Description", [""])]⟩ : Df).cols ∧
    2 ≤ ((⟨1, [("ID", ["A1"]), ("ID", ["S"]), ("Category", ["Sec"]),
        ("Requirement", ["R"]), ("Description", [""])]⟩ : Df).cols.filter
          (fun c => c.1 == "ID")).length ∧
    4 < (⟨1, [("ID", ["A1"]), ("ID", ["S"]), ("Category", ["Sec"]),
        ("Requirement", ["R"]), ("Description", [""])]⟩ : Df).cols.length :=
  claim_C10_duplicate_canonical_columns
    ⟨1, [("Standard ID", ["A1"]), ("Std Standard", ["S"]), ("Category", ["Sec"]),
      ("Requirement", ["R"])]⟩
    ("Standard ID", ["A1"]) ("Std Standard", ["S"]) "ID"
    ⟨1, [("ID", ["A1"]), ("ID", ["S"]), ("Category", ["Sec"]),
      ("Requirement", ["R"]), ("Description", [""])]⟩
    (by decide) (by decide) (by decide) (by decide) (by decide) rfl
